import Mathlib

/-!
# Verification of the scrape orchestration and extraction pipeline

Shallow embedding of the scraper service (`scraper-service/`): the task
dispatcher (`tasks.py`), the browser-session engine (`scraper_engine.py`)
and the batch extraction scheduler shared by the site extractors
(`scrapers/amazon.py`, `scrapers/google_maps.py`), together with proofs
of the specified properties.

Conventions of the embedding:
* Python exceptions are modelled by an explicit outcome type; a function
  that catches all exceptions is total in the embedding.
* Effects that the properties talk about (browser launches, context
  closes, HTTP send attempts, sleeps) are modelled as explicit counters
  or event traces produced alongside the return value, mirroring the
  order in which the corresponding statements execute in the source.
* A Python `set` of strings has implementation-defined iteration order,
  so `list(s)` is modelled relationally: any duplicate-free list with
  the same members is a possible result.
-/

namespace Scrapi

/-! ## Python string containment (`needle in hay`) -/

/-- `beginsWith hay needle` : `needle` occurs at the start of `hay`. -/
def beginsWith : List Char → List Char → Bool
  | _, [] => true
  | [], _ :: _ => false
  | a :: as, b :: bs => a == b && beginsWith as bs

/-- `hasSub hay needle` : `needle` occurs contiguously inside `hay`
(the semantics of Python's `needle in hay` on strings). -/
def hasSub : List Char → List Char → Bool
  | [], needle => needle.isEmpty
  | a :: t, needle => beginsWith (a :: t) needle || hasSub t needle

/-- Python `needle in hay` for `String`. -/
def strIn (needle hay : String) : Bool :=
  hasSub hay.data needle.data

/-! ## `ScraperEngine._handle_route` (scraper_engine.py, lines 97-131)

The handler decides, per outgoing request, whether to abort (`true`) or
continue (`false`).  It is installed on a context only when at least one
blocking flag is set (`create_context`, line 71). -/

/-- The fixed analytics/tracking domain list of `_handle_route`. -/
def analyticsDomains : List String :=
  ["google-analytics.com", "googletagmanager.com", "facebook.com/tr",
   "doubleclick.net", "analytics.google.com", "stats.g.doubleclick.net"]

/-- Font filename extensions checked by `_handle_route`. -/
def fontExts : List String := [".woff", ".woff2", ".ttf", ".otf"]

/-- `_handle_route`: abort decision given the flags, the request's
resource type, and its lowercased URL.  `true` means `route.abort()`. -/
def handle_route (ultra_fast block_media block_fonts : Bool)
    (resource_type url : String) : Bool :=
  if (ultra_fast || block_media) && resource_type == "image" then true
  else if (ultra_fast || block_fonts) &&
      (resource_type == "font" || fontExts.any (fun ext => strIn ext url)) then true
  else if ultra_fast && resource_type == "stylesheet" then true
  else if analyticsDomains.any (fun d => strIn d url) then true
  else false

/-- Effective per-request decision of a context made by `create_context`:
the route handler is registered only when some blocking flag is set
(line 71); otherwise every request proceeds unintercepted. -/
def routeDecision (ultra_fast block_media block_fonts : Bool)
    (resource_type url : String) : Bool :=
  if ultra_fast || block_media || block_fonts then
    handle_route ultra_fast block_media block_fonts resource_type url
  else false

/-! ## `ScraperEngine.navigate_with_retry` (scraper_engine.py, lines 151-166) -/

/-- Outcome of one `page.goto` attempt: an exception, a response with an
HTTP status, or a `None` response. -/
inductive NavOutcome where
  | exn (msg : String)
  | resp (status : Nat)
  | noResp
  deriving DecidableEq, Repr

/-- Observable result of `navigate_with_retry`: the returned Bool, the
number of `page.goto` attempts made, the total seconds slept in
exponential backoff (`2 ** attempt`), and the number of human-like
`uniform(1, 3)` delays taken. -/
structure NavResult where
  success : Bool
  attempts : Nat
  backoffSleep : Nat
  humanDelays : Nat
  deriving DecidableEq, Repr

/-- Loop body of `navigate_with_retry`.  `attempt` is the current index
of the `for attempt in range(max_retries)` loop and `remaining + 1` the
number of loop iterations still to run, so the current attempt is the
last one exactly when `remaining = 0` (this encodes the source's
`attempt < max_retries - 1` backoff guard).  A response with
status `< 400` returns `True` after the human-like delay; a bad status or
`None` response logs a warning and retries with no sleep; an exception
sleeps `2 ^ attempt` before retrying unless the attempt was the last. -/
def navAux (outcomes : Nat → NavOutcome) (attempt : Nat) : Nat → NavResult
  | 0 => { success := false, attempts := attempt, backoffSleep := 0, humanDelays := 0 }
  | remaining + 1 =>
    match outcomes attempt with
    | NavOutcome.resp s =>
      if s < 400 then
        { success := true, attempts := attempt + 1, backoffSleep := 0, humanDelays := 1 }
      else
        navAux outcomes (attempt + 1) remaining
    | NavOutcome.noResp =>
        navAux outcomes (attempt + 1) remaining
    | NavOutcome.exn _ =>
        let rest := navAux outcomes (attempt + 1) remaining
        if remaining = 0 then rest
        else { rest with backoffSleep := 2 ^ attempt + rest.backoffSleep }

/-- `navigate_with_retry(page, url, max_retries)`, with the behaviour of
the endpoint on each attempt given by `outcomes`. -/
def navigate_with_retry (outcomes : Nat → NavOutcome) (max_retries : Nat) : NavResult :=
  navAux outcomes 0 max_retries

/-! ## The batch partition (`for i in range(0, len(xs), batch_size)`)

Both extractors' `scrape` methods partition the discovered targets with
`xs[i:i+batch_size]` for `i = 0, B, 2B, ...` and `batch_size = 3`
(amazon.py lines 166-168, google_maps.py lines 153-157). -/

/-- The list of slices `xs[i:i+B]` for `i = 0, B, 2B, ...` — one slice
per element of `range(0, len(xs), B)`, which has `ceil(len/B)` =
`(len + B - 1) / B` elements. -/
def chunks (B : Nat) (l : List α) : List (List α) :=
  (List.range ((l.length + B - 1) / B)).map (fun i => (l.drop (i * B)).take B)

/-- Batch size used by both extractors' detail-extraction phase. -/
def batch_size : Nat := 3

/-! ## Python values and exceptions -/

/-- A Python value (the JSON-like payloads the service passes around). -/
inductive Value where
  | null
  | str (s : String)
  | num (n : Int)
  | boolean (b : Bool)
  | list (xs : List Value)
  | dict (fields : List (String × Value))

/-- Result of running a piece of Python code: a returned value or a
raised exception carrying `str(e)`. -/
inductive PyResult (α : Type u) where
  | ok (v : α)
  | exn (msg : String)

/-- Model of `traceback.format_exc()` for an exception message. -/
def pyTraceback (msg : String) : String :=
  "Traceback (most recent call last): " ++ msg

/-! ## The status-propagation channel (tasks.py, lines 81-114 and 257-279) -/

/-- Outcome of one outbound HTTP POST to the status sink: a response
with an HTTP status, or a raised exception (connection error, timeout). -/
inductive Delivery where
  | ok (httpStatus : Nat)
  | exn (msg : String)

/-- The try-block of `_send_status_update`: one POST to
`/api/runs/run_id/status`; the log line written, or the exception if
the call raised. -/
def statusPostAttempt (d : Delivery) : PyResult (List String) :=
  match d with
  | Delivery.ok s =>
    if s = 200 then PyResult.ok ["info: sent update"]
    else PyResult.ok ["warning: failed to send update: " ++ toString s]
  | Delivery.exn m => PyResult.exn m

/-- `_send_status_update`: the whole body sits inside `try/except
Exception`, so a delivery failure is logged and the function returns
normally.  Returns the log lines and the number of POST attempts made
(always exactly one — there is no retry loop in the source). -/
def send_status_update (d : Delivery) : List String × Nat :=
  match statusPostAttempt d with
  | PyResult.ok logs => (logs, 1)
  | PyResult.exn m => (["warning: Failed to send status update: " ++ m], 1)

/-- `_send_enrichment_update`: same catch-and-log shape as
`_send_status_update` (one POST to `/api/runs/run_id/enrich-update`,
5s timeout, failure logged, never raised, no retry). -/
def send_enrichment_update (d : Delivery) : List String × Nat :=
  match statusPostAttempt d with
  | PyResult.ok logs => (logs, 1)
  | PyResult.exn m => (["warning: Failed to send WebSocket update: " ++ m], 1)

/-! ## The dispatcher task `scrape_task` (tasks.py, lines 19-79) -/

/-- The keys of the static `scraper_map` built in `scrape_task`. -/
def scraper_map : List String :=
  ["google-maps", "google-business", "amazon", "instagram", "twitter",
   "facebook", "linkedin", "tiktok", "website", "apollo"]

/-- What one invocation of a scraper function observably does: its
return value or raised exception, and how many `ScraperEngine`
objects (browser sessions) it constructed along the way. -/
structure ScrapeRun where
  result : PyResult Value
  enginesCreated : Nat

/-- Observable outcome of one `scrape_task` execution: the dict the
task returns to the queue, the number of `ScraperEngine` constructions,
the number of status-sink POSTs, and the log lines. -/
structure TaskRun where
  result : Value
  enginesCreated : Nat
  statusPosts : Nat
  logs : List String

/-- The `{status: success, data}` payload returned on line 62-65. -/
def successPayload (data : Value) : Value :=
  Value.dict [("status", Value.str "success"), ("data", data)]

/-- The `{status: error, error, traceback}` payload returned on
line 75-79. -/
def errorPayload (msg : String) : Value :=
  Value.dict [("status", Value.str "error"), ("error", Value.str msg),
              ("traceback", Value.str (pyTraceback msg))]

/-- `scrape_task(actor_id, input_data, run_id)`.  `impl` gives the
behaviour of each registered scraper function on this input (the static
`scraper_map` maps exactly the keys of `scraper_map` to functions);
`dStarted` and `dFinal` are the delivery outcomes of the started webhook
and of the success/error webhook.  An unmapped `actor_id` raises
`ValueError` with the message naming it, which the surrounding
`except Exception` converts to the structured error payload; a scraper
exception is converted the same way.  The task itself never raises. -/
def scrape_task (impl : String → Value → ScrapeRun)
    (dStarted dFinal : Delivery)
    (actor_id : String) (input_data : Value) (run_id : Option String) :
    TaskRun :=
  let started := match run_id with
    | some _ => send_status_update dStarted
    | none => ([], 0)
  if actor_id ∈ scraper_map then
    let run := impl actor_id input_data
    match run.result with
    | PyResult.ok v =>
      let fin := match run_id with
        | some _ => send_status_update dFinal
        | none => ([], 0)
      { result := successPayload v, enginesCreated := run.enginesCreated,
        statusPosts := started.2 + fin.2, logs := started.1 ++ fin.1 }
    | PyResult.exn e =>
      let fin := match run_id with
        | some _ => send_status_update dFinal
        | none => ([], 0)
      { result := errorPayload e, enginesCreated := run.enginesCreated,
        statusPosts := started.2 + fin.2, logs := started.1 ++ fin.1 }
  else
    let msg := "Unknown actor_id: " ++ actor_id
    let fin := match run_id with
      | some _ => send_status_update dFinal
      | none => ([], 0)
    { result := errorPayload msg, enginesCreated := 0,
      statusPosts := started.2 + fin.2, logs := started.1 ++ fin.1 }

/-! ## `ScraperEngine` lifecycle state (scraper_engine.py)

`initialize` (lines 18-34) unconditionally starts a Playwright driver
and launches a browser, overwriting `self.playwright`/`self.browser`.
`create_context` (lines 36-39) calls `initialize` only when
`self.browser` is not set. -/

/-- The lifecycle-relevant state of a `ScraperEngine`: how many times
the automation driver was started and a browser launched, whether
`self.playwright`/`self.browser` are currently set, and how many
contexts are tracked in `self.contexts`. -/
structure EngineState where
  playwrightStarts : Nat
  browserLaunches : Nat
  playwrightSet : Bool
  browserSet : Bool
  trackedContexts : Nat
  deriving DecidableEq, Repr

/-- The state of a freshly constructed `ScraperEngine.__init__`. -/
def engineInit : EngineState :=
  { playwrightStarts := 0, browserLaunches := 0,
    playwrightSet := false, browserSet := false, trackedContexts := 0 }

/-- `ScraperEngine.initialize` (the name is a Lean keyword, hence
`initEngine` here): starts the driver and launches a
browser unconditionally (no guard in the source). -/
def initEngine (s : EngineState) : EngineState :=
  { playwrightStarts := s.playwrightStarts + 1,
    browserLaunches := s.browserLaunches + 1,
    playwrightSet := true, browserSet := true,
    trackedContexts := s.trackedContexts }

/-- `ScraperEngine.create_context` effect on the lifecycle state: lazy
initialization (`if not self.browser: await self.initialize()`), then
the new context is appended to `self.contexts`. -/
def create_context (s : EngineState) : EngineState :=
  let s1 := if s.browserSet then s else initEngine s
  { s1 with trackedContexts := s1.trackedContexts + 1 }

/-! ## Resource-release traces (`cleanup` and the sync wrappers) -/

/-- Resource-release events of a task execution. -/
inductive REv where
  | contextClose
  | browserClose
  | playwrightStop
  deriving DecidableEq, Repr

/-- `ScraperEngine.cleanup` (lines 214-225): closes every tracked
context, then the browser if set, then stops the driver if started. -/
def cleanup (s : EngineState) : List REv :=
  List.replicate s.trackedContexts REv.contextClose
    ++ (if s.browserSet then [REv.browserClose] else [])
    ++ (if s.playwrightSet then [REv.playwrightStop] else [])

/-- Behaviour of the body of `GoogleMapsScraperV3.scrape` after the
context has been created: the list of records it produces, or the
exception it raises. -/
inductive ScrapeOutcome where
  | ok (results : List Value)
  | exn (msg : String)

/-- `GoogleMapsScraperV3.scrape` resource behaviour (lines 101-189):
`create_context` on the engine, a `try` body with outcome `outcome`,
and a `finally` that closes the created context on both paths.
Returns the engine state, the close events emitted, and the result. -/
def mapsScrape (s : EngineState) (outcome : ScrapeOutcome) :
    EngineState × List REv × PyResult (List Value) :=
  let s1 := create_context s
  match outcome with
  | ScrapeOutcome.ok rs => (s1, [REv.contextClose], PyResult.ok rs)
  | ScrapeOutcome.exn e => (s1, [REv.contextClose], PyResult.exn e)

/-- Running `engine.cleanup()` whose awaited release calls (context
closes, then browser close, then driver stop — the list `cleanup s`)
may raise: `none` means every call returns; `some (i, e)` means the
call at position `i` raises `e`, so the `i` calls before it completed
and the remaining calls are skipped (the exception propagates out of
`cleanup`).  Returns the release events that executed and the
outcome. -/
def runCleanup (s : EngineState) : Option (Nat × String) → List REv × PyResult Unit
  | none => (cleanup s, PyResult.ok ())
  | some (i, e) => ((cleanup s).take i, PyResult.exn e)

/-- `scrape_google_maps` (google_maps.py, lines 636-665): constructs a
fresh `ScraperEngine`, runs `scraper.scrape` then `engine.cleanup()`
inside one `try`; any exception (from the scrape or from any release
call inside cleanup) is caught and turned into the return value
`{error: str(e)}`.  There is no `finally`, so the `except` path
performs no release beyond what already ran: nothing when the scrape
raised, the first `i` release calls when cleanup raised at call `i`.
Returns the emitted release events and the Python return value. -/
def scrape_google_maps (outcome : ScrapeOutcome)
    (cleanupFailure : Option (Nat × String)) : List REv × Value :=
  let r := mapsScrape engineInit outcome
  match r.2.2 with
  | PyResult.exn e => (r.2.1, Value.dict [("error", Value.str e)])
  | PyResult.ok rs =>
    match runCleanup r.1 cleanupFailure with
    | (evs, PyResult.ok _) => (r.2.1 ++ evs, Value.list rs)
    | (evs, PyResult.exn e) => (r.2.1 ++ evs, Value.dict [("error", Value.str e)])

/-- The `scraper_map` entry for `google-maps` as seen by `scrape_task`:
the wrapper never raises (it returns the error dict instead) and
constructs exactly one `ScraperEngine` (line 642). -/
def googleMapsEntry (outcome : ScrapeOutcome)
    (cleanupFailure : Option (Nat × String)) : ScrapeRun :=
  { result := PyResult.ok (scrape_google_maps outcome cleanupFailure).2,
    enginesCreated := 1 }

/-! ## Discovery and deduplication

`AmazonProductScraper._search_products` (amazon.py, lines 211-295)
accumulates ASINs into a Python *list* guarded by `if asin not in
asins: asins.append(asin)`, breaking once `len(asins) >= max_results`,
and finally returns `asins[:max_results]`.

`GoogleMapsScraperV3._search_places` (google_maps.py, lines 191-299)
accumulates URLs into a Python *set* (`place_urls.add(href)`), breaking
once `len(place_urls) >= max_results`, and returns `list(place_urls)` —
set iteration order is implementation defined. -/

/-- One `if x not in acc: acc.append(x)` step. -/
def addUnique (acc : List String) (x : String) : List String :=
  if x ∈ acc then acc else acc ++ [x]

/-- First-seen-order deduplication of an encounter sequence. -/
def pyDedup (l : List String) : List String := l.foldl addUnique []

/-- The ASIN accumulation loop of `_search_products`: each valid ASIN
in encounter order is appended unless already present, and the loop
stops as soon as `max_results` ASINs are held. -/
def collectAsins (max_results : Nat) (acc : List String) : List String → List String
  | [] => acc
  | a :: rest =>
    let acc2 := if a ∈ acc then acc else acc ++ [a]
    if max_results ≤ acc2.length then acc2
    else collectAsins max_results acc2 rest

/-- `_search_products` restricted to its accumulation behaviour: the
returned `asins[:max_results]` for the flattened encounter sequence of
valid ASINs across result pages. -/
def search_products (encountered : List String) (max_results : Nat) : List String :=
  (collectAsins max_results [] encountered).take max_results

/-- `list(s)` for a Python set with the given members: any
duplicate-free list with exactly those members is a possible result
(iteration order of a Python set is implementation defined). -/
def setListing (members out : List String) : Prop :=
  out.Nodup ∧ ∀ x, x ∈ out ↔ x ∈ members

/-- `_search_places` restricted to its accumulation behaviour: the set
holds the first `max_results` distinct URLs of the encounter sequence,
and the returned list is some enumeration of that set. -/
def search_places (encountered : List String) (max_results : Nat)
    (out : List String) : Prop :=
  setListing ((pyDedup encountered).take max_results) out

/-! ## The batched detail-extraction schedule

Event trace of the detail phase: per batch, all extraction coroutines
are created (`launch`), then `asyncio.gather` awaits them all (`res`),
and only then does the `for i in range(...)` loop move to the next
batch.  Completion order inside one batch is unordered; the trace fixes
an arbitrary one, and the proved properties only compare events of
distinct batches. -/

/-- A detail-phase event: operation of batch `k` on target `t` is
launched, or has resolved (success, exception, or error value). -/
inductive BEv (α : Type u) where
  | launch (k : Nat) (t : α)
  | res (k : Nat) (t : α)
  deriving DecidableEq, Repr

/-- The batch index an event belongs to. -/
def BEv.idx : BEv α → Nat
  | BEv.launch k _ => k
  | BEv.res k _ => k

/-- Trace of the batches `bs`, the first one carrying index `k`. -/
def batchTraceAux (k : Nat) : List (List α) → List (BEv α)
  | [] => []
  | b :: bs =>
    b.map (BEv.launch k) ++ b.map (BEv.res k) ++ batchTraceAux (k + 1) bs

/-- Full event trace of the detail phase over target list `targets`
with batch size `B`. -/
def detailSchedule (B : Nat) (targets : List α) : List (BEv α) :=
  batchTraceAux 0 (chunks B targets)

/-! ## Per-batch failure isolation

Maps: `_extract_place_details` catches every exception and returns
`None` for that target (lines 449-454); the batch loop keeps only dict
results (lines 176-178), so a failed target is dropped.

Amazon: `_extract_product_details` catches every exception, stores
`product_data[error] = str(e)` and still returns the record
(lines 531-538); the batch loop then applies the rating/price filters
and tags `searchKeyword` (lines 186-194). -/

/-- Behaviour of the body of one detail extraction: the record fields
successfully collected, or an exception after collecting some fields. -/
inductive ExtractOutcome where
  | ok (fields : List (String × Value))
  | exn (fieldsSoFar : List (String × Value)) (msg : String)

/-- `_extract_place_details`: the record dict on success, `None` when
the body raised (the `except` swallows the exception). -/
def extract_place_details (url : String) : ExtractOutcome → Option Value
  | ExtractOutcome.ok fs => some (Value.dict (("url", Value.str url) :: fs))
  | ExtractOutcome.exn _ _ => none

/-- Maps batch-result handling (lines 176-178): keep dict results,
drop `None` and captured exceptions. -/
def mapsBatchKeep (batch : List (String × ExtractOutcome)) : List Value :=
  (batch.map (fun p => extract_place_details p.1 p.2)).reduceOption

/-- The whole Maps detail phase for one search term: process the
targets in `chunks batch_size` order, keeping each batch's dicts. -/
def mapsDetailPhase (targets : List (String × ExtractOutcome)) : List Value :=
  ((chunks batch_size targets).map mapsBatchKeep).flatten

/-- The base fields `asin` and `url` set before the `try` of
`_extract_product_details` (lines 305-308). -/
def asinBase (asin : String) : List (String × Value) :=
  [("asin", Value.str asin), ("url", Value.str ("https://www.amazon.com/dp/" ++ asin))]

/-- `_extract_product_details`: always returns the record; an exception
adds an `error` field with `str(e)` (lines 531-538). -/
def extract_product_details (asin : String) : ExtractOutcome → Value
  | ExtractOutcome.ok fs => Value.dict (asinBase asin ++ fs)
  | ExtractOutcome.exn fs e =>
      Value.dict (asinBase asin ++ fs ++ [("error", Value.str e)])

/-- `result.get(key, dflt)` when the field is numeric. -/
def dictGetNum (v : Value) (key : String) (dflt : Int) : Int :=
  match v with
  | Value.dict fields =>
    match fields.lookup key with
    | some (Value.num n) => n
    | some _ => dflt
    | none => dflt
  | _ => dflt

/-- The two job-level filters of the Amazon batch loop (lines 189-192):
skip when `min_rating > 0` and the rating (default 0) is below it; skip
when `max_price` is set and the price (default `inf`, i.e. a missing
price fails the check) exceeds it. -/
def amazonFilter (min_rating : Int) (max_price : Option Int) (v : Value) : Bool :=
  if min_rating > 0 && dictGetNum v "rating" 0 < min_rating then false
  else
    match max_price with
    | some mp =>
      match v with
      | Value.dict fields =>
        match fields.lookup "price" with
        | some (Value.num n) => decide (n ≤ mp)
        | _ => false
      | _ => false
    | none => true

/-- `result[searchKeyword] = keyword` on a record dict. -/
def tagKeyword (keyword : String) (v : Value) : Value :=
  match v with
  | Value.dict fields => Value.dict (fields ++ [("searchKeyword", Value.str keyword)])
  | other => other

/-- Amazon batch-result handling (lines 186-194): every result is a
dict; apply the filters, tag the keyword, keep in order. -/
def amazonBatchKeep (min_rating : Int) (max_price : Option Int) (keyword : String)
    (batch : List (String × ExtractOutcome)) : List Value :=
  ((batch.map (fun p => extract_product_details p.1 p.2)).filter
    (amazonFilter min_rating max_price)).map (tagKeyword keyword)

/-- The whole Amazon detail phase for one keyword. -/
def amazonDetailPhase (min_rating : Int) (max_price : Option Int) (keyword : String)
    (targets : List (String × ExtractOutcome)) : List Value :=
  ((chunks batch_size targets).map
    (amazonBatchKeep min_rating max_price keyword)).flatten

/-! # Lemmas about the batch partition -/

theorem chunks_nil (B : Nat) : chunks B ([] : List α) = [] := by
  have h : (B - 1) / B = 0 := by
    rcases Nat.eq_zero_or_pos B with rfl | hB
    · simp
    · exact Nat.div_eq_of_lt (by omega)
  simp [chunks, h]

theorem chunks3_cons (l : List α) (hne : l ≠ []) :
    chunks 3 l = l.take 3 :: chunks 3 (l.drop 3) := by
  have hpos : 0 < l.length := List.length_pos.mpr hne
  have hcount : (l.length + 3 - 1) / 3 = ((l.length - 3) + 3 - 1) / 3 + 1 := by omega
  unfold chunks
  rw [List.length_drop, hcount, List.range_succ_eq_map, List.map_cons, List.map_map]
  refine congrArg₂ List.cons (by simp) (List.map_congr_left ?_)
  intro i _
  simp only [Function.comp_apply]
  rw [List.drop_drop]
  have h3 : i.succ * 3 = 3 + i * 3 := by omega
  rw [h3]

theorem chunks3_length (l : List α) : (chunks 3 l).length = (l.length + 2) / 3 := by
  simp [chunks]

theorem chunks3_size_le (l : List α) (c : List α) (hc : c ∈ chunks 3 l) :
    c.length ≤ 3 := by
  simp only [chunks, List.mem_map] at hc
  obtain ⟨i, _, rfl⟩ := hc
  simp

theorem chunks3_flatten_le : ∀ (n : Nat) (l : List α), l.length ≤ n →
    (chunks 3 l).flatten = l := by
  intro n
  induction n with
  | zero =>
    intro l hl
    have : l = [] := List.eq_nil_of_length_eq_zero (Nat.le_zero.mp hl)
    subst this
    simp [chunks]
  | succ n ih =>
    intro l hl
    rcases eq_or_ne l [] with rfl | hne
    · simp [chunks]
    · rw [chunks3_cons l hne, List.flatten_cons,
        ih (l.drop 3) (by simp; omega)]
      exact List.take_append_drop 3 l

theorem chunks3_flatten (l : List α) : (chunks 3 l).flatten = l :=
  chunks3_flatten_le l.length l (Nat.le_refl _)

/-! # Lemmas about the detail-phase event trace -/

theorem batchTraceAux_mem_idx {k : Nat} {bs : List (List α)} {e : BEv α}
    (he : e ∈ batchTraceAux k bs) : k ≤ e.idx ∧ e.idx < k + bs.length := by
  induction bs generalizing k with
  | nil => simp [batchTraceAux] at he
  | cons b bs ih =>
    simp only [batchTraceAux, List.mem_append, List.mem_map] at he
    rcases he with (⟨t, _, rfl⟩ | ⟨t, _, rfl⟩) | h
    · simp [BEv.idx]
    · simp [BEv.idx]
    · have := ih h
      simp only [List.length_cons]
      omega

theorem batchTraceAux_append (k : Nat) (xs ys : List (List α)) :
    batchTraceAux k (xs ++ ys) =
      batchTraceAux k xs ++ batchTraceAux (k + xs.length) ys := by
  induction xs generalizing k with
  | nil => simp [batchTraceAux]
  | cons b bs ih =>
    simp only [List.cons_append, batchTraceAux, List.append_eq, ih,
      List.length_cons, List.append_assoc]
    have h : k + 1 + bs.length = k + (bs.length + 1) := by omega
    rw [h]

/-- C2: for a discovered-target list of length `N` and batch size 3,
the detail phase issues exactly `ceil(N/3) = (N+2)/3` batches, each of
at most 3 targets, the batches cover exactly the targets in order, and
the event trace splits, for every batch index `K`, into the events of
batches `≤ K` followed by the events of batches `> K` — so every
operation of batch `K+1` is launched only after every operation of
batch `K` has resolved. -/
theorem batch_scheduler_spec (targets : List String) :
    (chunks batch_size targets).length = (targets.length + 2) / 3 ∧
    (∀ c ∈ chunks batch_size targets, c.length ≤ 3) ∧
    (chunks batch_size targets).flatten = targets ∧
    (∀ K : Nat, ∃ pre post,
      detailSchedule batch_size targets = pre ++ post ∧
      (∀ e ∈ pre, BEv.idx e ≤ K) ∧
      (∀ e ∈ post, K < BEv.idx e)) := by
  refine ⟨chunks3_length targets, fun c hc => chunks3_size_le targets c hc,
    chunks3_flatten targets, fun K => ?_⟩
  set bs := chunks batch_size targets with hbs
  refine ⟨batchTraceAux 0 (bs.take (K + 1)),
    batchTraceAux (bs.take (K + 1)).length (bs.drop (K + 1)), ?_, ?_, ?_⟩
  · have h := batchTraceAux_append 0 (bs.take (K + 1)) (bs.drop (K + 1))
    rw [List.take_append_drop] at h
    show batchTraceAux 0 bs = _
    simpa using h
  · intro e he
    have h := batchTraceAux_mem_idx he
    have : (bs.take (K + 1)).length ≤ K + 1 := by
      simp
    omega
  · intro e he
    have h := batchTraceAux_mem_idx he
    rcases Nat.lt_or_ge K.succ bs.length with hlt | hge
    · have : (bs.take (K + 1)).length = K + 1 := by
        simp [Nat.min_eq_left (Nat.le_of_lt hlt)]
      omega
    · have : bs.drop (K + 1) = [] := List.drop_eq_nil_of_le hge
      rw [this] at he
      simp [batchTraceAux] at he

/-- Witness for C2 at a concrete 4-target list: 2 batches, the sample
batch has size ≤ 3, the batches cover the list, and the trace splits
after batch 0. -/
theorem batch_scheduler_spec_witness :
    (chunks batch_size ["a", "b", "c", "d"]).length = (4 + 2) / 3 ∧
    List.length ["d"] ≤ 3 ∧
    (chunks batch_size ["a", "b", "c", "d"]).flatten = ["a", "b", "c", "d"] ∧
    (∃ pre post, detailSchedule batch_size ["a", "b", "c", "d"] = pre ++ post ∧
      (∀ e ∈ pre, BEv.idx e ≤ 0) ∧ (∀ e ∈ post, 0 < BEv.idx e)) := by
  obtain ⟨h1, h2, h3, h4⟩ := batch_scheduler_spec ["a", "b", "c", "d"]
  exact ⟨h1, h2 ["d"] (by decide), h3, h4 0⟩

/-! # The dispatcher boundary (C1), the status sink (C8), and the
masked extractor failure (C10) -/

/-- C1: for every actor id, input and run id, `scrape_task` returns a
payload that is either `{status: success, data}` or `{status: error,
error, traceback}` — exceptions never reach the task queue — and for an
actor id absent from the static registry it returns an error payload
whose message names the unknown actor id, constructing no
`ScraperEngine` (hence no browser session). -/
theorem scrape_task_boundary (impl : String → Value → ScrapeRun)
    (dS dF : Delivery) (actor : String) (input : Value) (rid : Option String) :
    ((∃ d, (scrape_task impl dS dF actor input rid).result = successPayload d) ∨
      (∃ e, (scrape_task impl dS dF actor input rid).result = errorPayload e)) ∧
    (actor ∉ scraper_map →
      (scrape_task impl dS dF actor input rid).result =
          errorPayload ("Unknown actor_id: " ++ actor) ∧
        (scrape_task impl dS dF actor input rid).enginesCreated = 0) := by
  by_cases hmem : actor ∈ scraper_map
  · refine ⟨?_, fun h => absurd hmem h⟩
    rcases hres : (impl actor input).result with v | e
    · exact Or.inl ⟨v, by simp [scrape_task, hmem, hres]⟩
    · exact Or.inr ⟨e, by simp [scrape_task, hmem, hres]⟩
  · exact ⟨Or.inr ⟨"Unknown actor_id: " ++ actor, by simp [scrape_task, hmem]⟩,
      fun _ => ⟨by simp [scrape_task, hmem], by simp [scrape_task, hmem]⟩⟩

/-- Witness for C1: dispatching the unregistered actor
`nonexistent-actor` yields the structured error payload naming it, with
zero engines constructed. -/
theorem scrape_task_boundary_witness :
    (scrape_task (fun _ _ => ⟨PyResult.ok Value.null, 1⟩) (Delivery.ok 200)
        (Delivery.ok 200) "nonexistent-actor" Value.null (some "r1")).result =
      errorPayload ("Unknown actor_id: " ++ "nonexistent-actor") ∧
    (scrape_task (fun _ _ => ⟨PyResult.ok Value.null, 1⟩) (Delivery.ok 200)
        (Delivery.ok 200) "nonexistent-actor" Value.null (some "r1")).enginesCreated
      = 0 :=
  (scrape_task_boundary (fun _ _ => ⟨PyResult.ok Value.null, 1⟩) (Delivery.ok 200)
    (Delivery.ok 200) "nonexistent-actor" Value.null (some "r1")).2 (by decide)

/-- C8: every status-sink emission makes exactly one POST attempt (no
retry), a delivery failure is caught inside the sending function and
only logged (the function returns normally with a warning log), and the
result a task returns is the same whatever the delivery outcomes of its
status emissions were. -/
theorem status_sink_fire_and_forget :
    (∀ d, (send_status_update d).2 = 1) ∧
    (∀ d, (send_enrichment_update d).2 = 1) ∧
    (∀ m, send_status_update (Delivery.exn m) =
      (["warning: Failed to send status update: " ++ m], 1)) ∧
    (∀ m, send_enrichment_update (Delivery.exn m) =
      (["warning: Failed to send WebSocket update: " ++ m], 1)) ∧
    (∀ impl dS dF dS2 dF2 actor input rid,
      (scrape_task impl dS dF actor input rid).result =
        (scrape_task impl dS2 dF2 actor input rid).result) := by
  refine ⟨?_, ?_, fun m => rfl, fun m => rfl, ?_⟩
  · intro d
    rcases d with s | m
    · by_cases h : s = 200 <;> simp [send_status_update, statusPostAttempt, h]
    · rfl
  · intro d
    rcases d with s | m
    · by_cases h : s = 200 <;> simp [send_enrichment_update, statusPostAttempt, h]
    · rfl
  · intro impl dS dF dS2 dF2 actor input rid
    by_cases hmem : actor ∈ scraper_map
    · rcases hres : (impl actor input).result with v | e <;>
        simp [scrape_task, hmem, hres]
    · simp [scrape_task, hmem]

/-- C10: when the google-maps scrape (or the subsequent cleanup call)
raises inside the synchronous wrapper, the wrapper returns the dict
`{error: message}` instead of a record list, and `scrape_task` wraps
that as `{status: success, data: {error: message}}` — the failure
surfaces with status `success`, not status `error`. -/
theorem maps_error_masked_as_success (msg : String) (cf : Option (Nat × String))
    (input : Value) (rid : Option String) (dS dF : Delivery) :
    (scrape_google_maps (ScrapeOutcome.exn msg) cf).2 =
        Value.dict [("error", Value.str msg)] ∧
    (∀ rs i, (scrape_google_maps (ScrapeOutcome.ok rs) (some (i, msg))).2 =
        Value.dict [("error", Value.str msg)]) ∧
    (scrape_task (fun _ _ => googleMapsEntry (ScrapeOutcome.exn msg) cf)
        dS dF "google-maps" input rid).result =
      successPayload (Value.dict [("error", Value.str msg)]) := by
  refine ⟨rfl, fun rs i => rfl, ?_⟩
  have hmem : "google-maps" ∈ scraper_map := by simp [scraper_map]
  simp [scrape_task, hmem, googleMapsEntry, scrape_google_maps, mapsScrape]

/-! # Navigation retry (C3) -/

/-- An attempt outcome on which the loop does not return success: an
exception, a `None` response, or a response with status `>= 400`. -/
def navFail : NavOutcome → Bool
  | NavOutcome.resp s => decide (400 ≤ s)
  | NavOutcome.noResp => true
  | NavOutcome.exn _ => true

/-- Total backoff slept for attempts `a, ..., a + i - 1` when each of
them is followed by a further attempt: `2 ^ j` for each attempt `j`
that raised an exception, nothing for bad-status or `None` attempts. -/
def exnBackoff (outcomes : Nat → NavOutcome) (a : Nat) : Nat → Nat
  | 0 => 0
  | i + 1 =>
    (match outcomes a with
     | NavOutcome.exn _ => 2 ^ a
     | _ => 0) + exnBackoff outcomes (a + 1) i

theorem navAux_attempts_le (outcomes : Nat → NavOutcome) :
    ∀ (f a : Nat), (navAux outcomes a f).attempts ≤ a + f := by
  intro f
  induction f with
  | zero => intro a; simp [navAux]
  | succ f ih =>
    intro a
    have hrec : (navAux outcomes (a + 1) f).attempts ≤ a + (f + 1) := by
      have := ih (a + 1); omega
    simp only [navAux]
    rcases h : outcomes a with m | s | _ <;> simp only [h]
    · split
      · exact hrec
      · exact hrec
    · split
      · simp
      · exact hrec
    · exact hrec

theorem navAux_all_fail (outcomes : Nat → NavOutcome) :
    ∀ (f a : Nat), (∀ j, a ≤ j → j < a + f → navFail (outcomes j)) →
      navAux outcomes a f =
        { success := false, attempts := a + f,
          backoffSleep := exnBackoff outcomes a (f - 1), humanDelays := 0 } := by
  intro f
  induction f with
  | zero => intro a _; simp [navAux, exnBackoff]
  | succ f ih =>
    intro a hfail
    have ha : navFail (outcomes a) := hfail a (Nat.le_refl a) (by omega)
    have hrec := ih (a + 1) (fun j h1 h2 => hfail j (by omega) (by omega))
    simp only [navAux]
    rcases h : outcomes a with m | s | _ <;> simp only [h]
    · rcases f with _ | g
      · simp [hrec, exnBackoff, h]
      · simp only [Nat.succ_ne_zero, if_false, hrec]
        simp [exnBackoff, h]
        omega
    · have hs : ¬ s < 400 := by
        simp [navFail, h] at ha; omega
      rw [if_neg hs, hrec]
      rcases f with _ | g
      · simp [exnBackoff]
      · simp [exnBackoff, h]
        omega
    · rw [hrec]
      rcases f with _ | g
      · simp [exnBackoff]
      · simp [exnBackoff, h]
        omega

theorem navAux_first_success (outcomes : Nat → NavOutcome) :
    ∀ (i f a s : Nat), i < f →
      (∀ j, a ≤ j → j < a + i → navFail (outcomes j)) →
      outcomes (a + i) = NavOutcome.resp s → s < 400 →
      navAux outcomes a f =
        { success := true, attempts := a + i + 1,
          backoffSleep := exnBackoff outcomes a i, humanDelays := 1 } := by
  intro i
  induction i with
  | zero =>
    intro f a s hif _ hresp hs
    rcases f with _ | g
    · omega
    · simp only [navAux]
      rw [Nat.add_zero] at hresp
      simp [hresp, hs, exnBackoff]
  | succ i ih =>
    intro f a s hif hfail hresp hs
    rcases f with _ | g
    · omega
    · have ha : navFail (outcomes a) := hfail a (Nat.le_refl a) (by omega)
      have hrec := ih g (a + 1) s (by omega)
        (fun j h1 h2 => hfail j (by omega) (by omega))
        (by rw [show a + 1 + i = a + (i + 1) from by omega]; exact hresp) hs
      simp only [navAux]
      rcases h : outcomes a with m | s0 | _ <;> simp only [h]
      · have hg : g ≠ 0 := by omega
        simp only [hg, if_false, hrec]
        simp [exnBackoff, h]
        omega
      · have hs0 : ¬ s0 < 400 := by
          simp [navFail, h] at ha; omega
        rw [if_neg hs0, hrec]
        simp [exnBackoff, h]
        omega
      · rw [hrec]
        simp [exnBackoff, h]
        omega

/-- An endpoint whose first two attempts fail with HTTP 500 and whose
third attempt returns HTTP 200. -/
def failTwiceStatus : Nat → NavOutcome :=
  fun i => if i < 2 then NavOutcome.resp 500 else NavOutcome.resp 200

/-- An endpoint whose first two attempts raise (e.g. timeouts) and
whose third attempt returns HTTP 200. -/
def failTwiceExn : Nat → NavOutcome :=
  fun i => if i < 2 then NavOutcome.exn "timeout" else NavOutcome.resp 200

/-- An endpoint that raises on every attempt. -/
def alwaysExn : Nat → NavOutcome := fun _ => NavOutcome.exn "timeout"

/-- C3 counterexample: against an endpoint failing on attempts 1-2
(with a bad HTTP status) and succeeding on attempt 3,
`navigate_with_retry` returns success after exactly 3 attempts but with
cumulative backoff sleep 0, not 1s + 2s = 3s: the source sleeps
`2 ** attempt` only in the `except` branch, so a bad-status attempt is
retried with no backoff sleep. -/
theorem navigate_no_backoff_on_bad_status :
    navigate_with_retry failTwiceStatus 3 =
      { success := true, attempts := 3, backoffSleep := 0, humanDelays := 1 } ∧
    (navigate_with_retry failTwiceStatus 3).backoffSleep ≠ 1 + 2 := by
  constructor
  · rfl
  · decide

/-- C3 amended: `navigate_with_retry(page, url, maxRetries)` makes at
most `maxRetries` attempts and never raises; it returns success on the
first attempt whose response has status < 400, after one human-like
uniform 1-3s delay, having slept `2 ^ attempt` seconds after exactly
those earlier attempts that failed by raising an exception (bad-status
and `None`-response attempts retry with no sleep); when every attempt
fails it returns failure after exactly `maxRetries` attempts, sleeping
`2 ^ attempt` after each exception attempt but the last.  In
particular, with exception failures on attempts 1-2 and success on
attempt 3 it succeeds after 3 attempts with cumulative backoff
1s + 2s = 3s, and against an always-raising endpoint it makes exactly
3 attempts and returns failure. -/
theorem navigate_with_retry_spec :
    (∀ outcomes maxR, (navigate_with_retry outcomes maxR).attempts ≤ maxR) ∧
    (∀ (outcomes : Nat → NavOutcome) (maxR i s : Nat), i < maxR →
      (∀ j, j < i → navFail (outcomes j)) →
      outcomes i = NavOutcome.resp s → s < 400 →
      navigate_with_retry outcomes maxR =
        { success := true, attempts := i + 1,
          backoffSleep := exnBackoff outcomes 0 i, humanDelays := 1 }) ∧
    (∀ (outcomes : Nat → NavOutcome) (maxR : Nat),
      (∀ j, j < maxR → navFail (outcomes j)) →
      navigate_with_retry outcomes maxR =
        { success := false, attempts := maxR,
          backoffSleep := exnBackoff outcomes 0 (maxR - 1), humanDelays := 0 }) ∧
    navigate_with_retry failTwiceExn 3 =
      { success := true, attempts := 3, backoffSleep := 1 + 2, humanDelays := 1 } ∧
    navigate_with_retry alwaysExn 3 =
      { success := false, attempts := 3, backoffSleep := 1 + 2, humanDelays := 0 } := by
  refine ⟨?_, ?_, ?_, by decide, by decide⟩
  · intro outcomes maxR
    have := navAux_attempts_le outcomes maxR 0
    simpa [navigate_with_retry] using this
  · intro outcomes maxR i s hi hfail hresp hs
    have h := navAux_first_success outcomes i maxR 0 s hi
      (fun j _ h2 => hfail j (by omega)) (by simpa using hresp) hs
    simpa [navigate_with_retry] using h
  · intro outcomes maxR hfail
    have h := navAux_all_fail outcomes maxR 0 (fun j _ h2 => hfail j (by omega))
    simpa [navigate_with_retry] using h

/-- Witness for C3 (amended): the first-success characterization
applied to the bad-status endpoint at attempt index 2 gives success
after 3 attempts with zero accumulated exception backoff. -/
theorem navigate_with_retry_spec_witness :
    navigate_with_retry failTwiceStatus 3 =
      { success := true, attempts := 2 + 1,
        backoffSleep := exnBackoff failTwiceStatus 0 2, humanDelays := 1 } :=
  navigate_with_retry_spec.2.1 failTwiceStatus 3 2 200 (by decide)
    (fun j hj => by
      have : j = 0 ∨ j = 1 := by omega
      rcases this with rfl | rfl <;> decide)
    (by decide) (by decide)

/-! # Resource blocking (C4) -/

/-- C4 counterexample: with all three blocking flags false,
`create_context` installs no route handler, so a request to the
analytics domain `google-analytics.com` is not aborted — the claim that
analytics requests are aborted under every flag combination fails for
the all-false combination.  (The handler itself would abort it, as the
second conjunct shows: the claim fails only because the handler is not
registered.) -/
theorem analytics_not_blocked_without_flags :
    routeDecision false false false "script"
      "https://www.google-analytics.com/collect" = false ∧
    handle_route false false false "script"
      "https://www.google-analytics.com/collect" = true := by
  exact ⟨rfl, by decide⟩

/-- C4 amended: a request to a known analytics domain is aborted
whenever at least one blocking flag is set; with all flags false no
interception is installed and every request — analytics included — is
allowed; with `ultraFast = true` an image request is aborted; with
`ultraFast = false` and `blockMedia = false` an image request whose URL
matches neither a font extension nor an analytics domain is allowed. -/
theorem route_blocking_spec (uf bm bf : Bool) (rt url : String) :
    ((uf || bm || bf) = true →
      analyticsDomains.any (fun d => strIn d url) = true →
      routeDecision uf bm bf rt url = true) ∧
    (routeDecision false false false rt url = false) ∧
    (uf = true → rt = "image" → routeDecision uf bm bf rt url = true) ∧
    (uf = false → bm = false → rt = "image" →
      fontExts.any (fun e => strIn e url) = false →
      analyticsDomains.any (fun d => strIn d url) = false →
      routeDecision uf bm bf rt url = false) := by
  refine ⟨?_, rfl, ?_, ?_⟩
  · intro hflags hana
    simp only [routeDecision, hflags, if_true]
    simp only [handle_route, hana]
    split
    · rfl
    · split
      · rfl
      · split <;> rfl
  · intro huf hrt
    subst huf hrt
    simp [routeDecision, handle_route]
  · intro huf hbm hrt hfont hana
    subst huf hbm hrt
    cases bf with
    | false => rfl
    | true => simp [routeDecision, handle_route, hfont, hana]

/-- Witness for C4 (amended): an analytics request is aborted when only
`blockFonts` is set; an image is aborted under `ultraFast`; a plain
image is allowed with `ultraFast = false`, `blockMedia = false`. -/
theorem route_blocking_spec_witness :
    routeDecision false false true "script"
        "https://stats.g.doubleclick.net/j/collect" = true ∧
    routeDecision true false false "image" "https://example.com/a.jpg" = true ∧
    routeDecision false false true "image" "https://example.com/a.jpg" = false :=
  ⟨(route_blocking_spec false false true "script"
      "https://stats.g.doubleclick.net/j/collect").1 (by decide) (by decide),
   (route_blocking_spec true false false "image" "https://example.com/a.jpg").2.2.1
      rfl rfl,
   (route_blocking_spec false false true "image" "https://example.com/a.jpg").2.2.2
      rfl rfl rfl (by decide) (by decide)⟩

/-! # Discovery deduplication and ordering (C5) -/

/-- Specification-side notion of first-seen-order deduplication (the
claim's words): keep each identifier at the position of its first
occurrence.  Compared below against the accumulator code of the two
discovery phases. -/
def firstSeenSpec : List String → List String
  | [] => []
  | a :: t => a :: firstSeenSpec (t.filter (fun x => x != a))
termination_by l => l.length
decreasing_by
  simp only [List.length_cons]
  exact Nat.lt_succ_of_le (List.length_filter_le _ _)

theorem foldl_addUnique_ext (l : List String) :
    ∀ acc, ∃ ext, l.foldl addUnique acc = acc ++ ext := by
  induction l with
  | nil => intro acc; exact ⟨[], by simp⟩
  | cons a t ih =>
    intro acc
    rcases ih (addUnique acc a) with ⟨ext, hext⟩
    by_cases h : a ∈ acc
    · refine ⟨ext, ?_⟩
      rw [List.foldl_cons, hext]
      simp [addUnique, h]
    · refine ⟨[a] ++ ext, ?_⟩
      rw [List.foldl_cons, hext]
      simp [addUnique, h]

theorem foldl_addUnique_spec (l : List String) :
    ∀ acc, l.foldl addUnique acc =
      acc ++ firstSeenSpec (l.filter (fun x => !decide (x ∈ acc))) := by
  induction l with
  | nil => intro acc; simp [firstSeenSpec]
  | cons a t ih =>
    intro acc
    by_cases h : a ∈ acc
    · rw [List.foldl_cons, show addUnique acc a = acc from by simp [addUnique, h],
        ih acc, List.filter_cons]
      simp [h]
    · rw [List.foldl_cons, show addUnique acc a = acc ++ [a] from by
        simp [addUnique, h], ih (acc ++ [a]), List.filter_cons]
      simp only [h, not_false_iff, decide_not, decide_eq_true_eq]
      have hpred : (t.filter (fun x => !decide (x ∈ acc ++ [a]))) =
          ((t.filter (fun x => !decide (x ∈ acc))).filter (fun x => x != a)) := by
        rw [List.filter_filter]
        refine List.filter_congr ?_
        intro x _
        by_cases hx : x = a
        · subst hx; simp
        · simp [hx, List.mem_append]
      rw [hpred]
      have hfss : firstSeenSpec (a :: t.filter (fun x => !decide (x ∈ acc))) =
          a :: firstSeenSpec
            ((t.filter (fun x => !decide (x ∈ acc))).filter (fun x => x != a)) := by
        simp [firstSeenSpec]
      simp [hfss, List.append_assoc]

theorem pyDedup_eq_firstSeenSpec (l : List String) : pyDedup l = firstSeenSpec l := by
  have h := foldl_addUnique_spec l []
  simpa [pyDedup] using h

theorem mem_firstSeenSpec : ∀ (n : Nat) (l : List String), l.length ≤ n →
    ∀ x, x ∈ firstSeenSpec l ↔ x ∈ l := by
  intro n
  induction n with
  | zero =>
    intro l hl x
    have : l = [] := List.eq_nil_of_length_eq_zero (Nat.le_zero.mp hl)
    subst this
    simp [firstSeenSpec]
  | succ n ih =>
    intro l hl x
    cases l with
    | nil => simp [firstSeenSpec]
    | cons a t =>
      have hlen : (t.filter (fun y => y != a)).length ≤ n := by
        have := List.length_filter_le (fun y => y != a) t
        simp at hl
        omega
      have hrec := ih (t.filter (fun y => y != a)) hlen x
      constructor
      · intro hx
        rw [show firstSeenSpec (a :: t) =
            a :: firstSeenSpec (t.filter (fun y => y != a)) from by
          simp [firstSeenSpec]] at hx
        rcases List.mem_cons.mp hx with rfl | hx2
        · exact List.mem_cons_self _ _
        · have := hrec.mp hx2
          rcases List.mem_filter.mp this with ⟨ht, _⟩
          exact List.mem_cons_of_mem _ ht
      · intro hx
        rw [show firstSeenSpec (a :: t) =
            a :: firstSeenSpec (t.filter (fun y => y != a)) from by
          simp [firstSeenSpec]]
        rcases List.mem_cons.mp hx with rfl | hx2
        · exact List.mem_cons_self _ _
        · by_cases hxa : x = a
          · subst hxa; exact List.mem_cons_self _ _
          · refine List.mem_cons_of_mem _ (hrec.mpr ?_)
            exact List.mem_filter.mpr ⟨hx2, by simp [hxa]⟩

theorem nodup_firstSeenSpec : ∀ (n : Nat) (l : List String), l.length ≤ n →
    (firstSeenSpec l).Nodup := by
  intro n
  induction n with
  | zero =>
    intro l hl
    have : l = [] := List.eq_nil_of_length_eq_zero (Nat.le_zero.mp hl)
    subst this
    simp [firstSeenSpec]
  | succ n ih =>
    intro l hl
    cases l with
    | nil => simp [firstSeenSpec]
    | cons a t =>
      have hlen : (t.filter (fun y => y != a)).length ≤ n := by
        have := List.length_filter_le (fun y => y != a) t
        simp at hl
        omega
      rw [show firstSeenSpec (a :: t) =
          a :: firstSeenSpec (t.filter (fun y => y != a)) from by simp [firstSeenSpec]]
      refine List.nodup_cons.mpr ⟨?_, ih _ hlen⟩
      intro hmem
      have := (mem_firstSeenSpec n _ hlen a).mp hmem
      rcases List.mem_filter.mp this with ⟨_, hne⟩
      simp at hne

theorem collectAsins_take (m : Nat) : ∀ (l acc : List String),
    (collectAsins m acc l).take m = (l.foldl addUnique acc).take m := by
  intro l
  induction l with
  | nil => intro acc; rfl
  | cons a rest ih =>
    intro acc
    show (if m ≤ (addUnique acc a).length then addUnique acc a
          else collectAsins m (addUnique acc a) rest).take m = _
    rw [List.foldl_cons]
    by_cases hstop : m ≤ (addUnique acc a).length
    · rw [if_pos hstop]
      rcases foldl_addUnique_ext rest (addUnique acc a) with ⟨ext, hext⟩
      rw [hext, List.take_append_of_le_length hstop]
    · rw [if_neg hstop]
      exact ih (addUnique acc a)

/-- C5 counterexample: the Maps discovery accumulates into a Python set
and returns `list(place_urls)`, whose iteration order is implementation
defined — so for the encounter sequence `[b, a, b]` the enumeration
`[a, b]` is a possible result of `_search_places`, and it is not the
first-seen order `[b, a]`.  Discovery order preservation fails for the
Maps extractor. -/
theorem discovery_order_not_guaranteed :
    search_places ["b", "a", "b"] 100 ["a", "b"] ∧
    ["a", "b"] ≠ pyDedup ["b", "a", "b"] := by
  constructor
  · refine ⟨by decide, ?_⟩
    intro x
    show x ∈ ["a", "b"] ↔ x ∈ (pyDedup ["b", "a", "b"]).take 100
    rw [show (pyDedup ["b", "a", "b"]).take 100 = ["b", "a"] from rfl]
    simp [List.mem_cons]
    tauto
  · decide

/-- C5 amended: both discovery phases deduplicate — every identifier
encountered more than once appears at most once in the output.  The
Amazon discovery preserves first-seen order: its result is exactly the
first-seen deduplication of the encounter sequence truncated to
`max_results`.  The Maps discovery returns exactly the first
`max_results` distinct identifiers but, being a set enumeration, in an
unspecified order. -/
theorem discovery_dedup_spec (l : List String) (m : Nat) :
    search_products l m = (firstSeenSpec l).take m ∧
    (search_products l m).Nodup ∧
    (∀ x, x ∈ search_products l m → x ∈ l) ∧
    (∀ out, search_places l m out →
      out.Nodup ∧ ∀ x, x ∈ out ↔ x ∈ (pyDedup l).take m) := by
  have heq : search_products l m = (firstSeenSpec l).take m := by
    show (collectAsins m [] l).take m = _
    rw [collectAsins_take m l []]
    show (pyDedup l).take m = _
    rw [pyDedup_eq_firstSeenSpec]
  refine ⟨heq, ?_, ?_, fun out h => h⟩
  · rw [heq]
    exact (nodup_firstSeenSpec l.length l (Nat.le_refl _)).sublist
      (List.take_sublist _ _)
  · intro x hx
    rw [heq] at hx
    have := (List.take_sublist m (firstSeenSpec l)).mem hx
    exact (mem_firstSeenSpec l.length l (Nat.le_refl _) x).mp this

/-- Witness for C5 (amended): the set enumeration `[c, a, b]` of the
Maps discovery on `[b, a, b, c]` is duplicate-free, and `a` is in the
Amazon discovery output for the same encounter sequence. -/
theorem discovery_dedup_spec_witness :
    (["c", "a", "b"] : List String).Nodup ∧
    "a" ∈ (["b", "a", "b", "c"] : List String) := by
  have h := discovery_dedup_spec ["b", "a", "b", "c"] 10
  refine ⟨(h.2.2.2 ["c", "a", "b"] ⟨by decide, ?_⟩).1, h.2.2.1 "a" (by decide)⟩
  intro x
  show x ∈ ["c", "a", "b"] ↔ x ∈ (pyDedup ["b", "a", "b", "c"]).take 10
  rw [show (pyDedup ["b", "a", "b", "c"]).take 10 = ["b", "a", "c"] from rfl]
  simp [List.mem_cons]
  tauto

/-! # Resource release on the task exit paths (C6) -/

/-- C6 counterexample: when `scraper.scrape` raises, the wrapper's
`except` path returns `{error: str(e)}` without ever invoking
`engine.cleanup()` — no browser close and no driver stop happen before
the task result is returned; only the scrape's own `finally` closed its
context.  The claim that cleanup runs on every exit path fails on the
exception path. -/
theorem cleanup_skipped_on_scrape_exception :
    (scrape_google_maps (ScrapeOutcome.exn "boom") none).1 = [REv.contextClose] ∧
    REv.browserClose ∉ (scrape_google_maps (ScrapeOutcome.exn "boom") none).1 ∧
    REv.playwrightStop ∉ (scrape_google_maps (ScrapeOutcome.exn "boom") none).1 ∧
    (scrape_google_maps (ScrapeOutcome.exn "boom") none).2 =
      Value.dict [("error", Value.str "boom")] := by
  exact ⟨rfl, by decide, by decide, rfl⟩

/-- C6 amended: on the non-raising path the wrapper does run
`engine.cleanup()` before returning, and in the released order — the
scrape's own context close, the cleanup's close of the tracked
context, then the browser close, then the driver stop (contexts before
browser before driver).  On the path where the scrape raises, cleanup
is not invoked at all: only the scrape's `finally` context close
happens.  When cleanup itself raises at its `i`-th release call, the
`i` calls before it completed (in the same contexts-browser-driver
order) and the remaining calls are skipped — so the driver stop, and
possibly the browser close, do not happen before the error result is
returned. -/
theorem scrape_google_maps_release_spec (rs : List Value) (e : String)
    (cf : Option (Nat × String)) (i : Nat) :
    (scrape_google_maps (ScrapeOutcome.ok rs) none).1 =
      [REv.contextClose, REv.contextClose, REv.browserClose, REv.playwrightStop] ∧
    (scrape_google_maps (ScrapeOutcome.ok rs) none).2 = Value.list rs ∧
    (scrape_google_maps (ScrapeOutcome.exn e) cf).1 = [REv.contextClose] ∧
    (scrape_google_maps (ScrapeOutcome.ok rs) (some (i, e))).1 =
      REv.contextClose ::
        ([REv.contextClose, REv.browserClose, REv.playwrightStop].take i) ∧
    (scrape_google_maps (ScrapeOutcome.ok rs) (some (i, e))).2 =
      Value.dict [("error", Value.str e)] ∧
    REv.playwrightStop ∉ (scrape_google_maps (ScrapeOutcome.ok rs) (some (2, e))).1 := by
  refine ⟨rfl, rfl, rfl, rfl, rfl, ?_⟩
  intro h
  rw [show (scrape_google_maps (ScrapeOutcome.ok rs) (some (2, e))).1 =
      [REv.contextClose, REv.contextClose, REv.browserClose] from rfl] at h
  simp at h

/-! # Failure isolation within a batch (C7) -/

/-- C7 counterexample: in the Maps extractor a target whose detail
extraction raises is dropped — `_extract_place_details` returns `None`,
which the `isinstance(result, dict)` check filters out — rather than
kept as an error-tagged record.  For three targets whose second raises,
the phase output holds exactly the first and third records and nothing
for the failed target. -/
theorem maps_failed_target_dropped :
    mapsDetailPhase
      [("u1", ExtractOutcome.ok []), ("u2", ExtractOutcome.exn [] "boom"),
       ("u3", ExtractOutcome.ok [])] =
      [Value.dict [("url", Value.str "u1")], Value.dict [("url", Value.str "u3")]] ∧
    (∀ v ∈ mapsDetailPhase
      [("u1", ExtractOutcome.ok []), ("u2", ExtractOutcome.exn [] "boom"),
       ("u3", ExtractOutcome.ok [])],
      v = Value.dict [("url", Value.str "u1")] ∨
        v = Value.dict [("url", Value.str "u3")]) := by
  constructor
  · rfl
  · intro v hv
    rw [show mapsDetailPhase
        [("u1", ExtractOutcome.ok []), ("u2", ExtractOutcome.exn [] "boom"),
         ("u3", ExtractOutcome.ok [])] =
        [Value.dict [("url", Value.str "u1")],
         Value.dict [("url", Value.str "u3")]] from rfl] at hv
    simpa [List.mem_cons] using hv

theorem flatten_map_batches {γ δ : Type} (f : List γ → List δ)
    (hnil : f [] = []) (happ : ∀ xs ys, f (xs ++ ys) = f xs ++ f ys)
    (L : List (List γ)) : (L.map f).flatten = f L.flatten := by
  induction L with
  | nil => simp [hnil]
  | cons c cs ih => simp [happ, ih]

theorem mapsBatchKeep_append (xs ys : List (String × ExtractOutcome)) :
    mapsBatchKeep (xs ++ ys) = mapsBatchKeep xs ++ mapsBatchKeep ys := by
  simp [mapsBatchKeep, List.reduceOption_append]

theorem amazonBatchKeep_append (mr : Int) (mp : Option Int) (kw : String)
    (xs ys : List (String × ExtractOutcome)) :
    amazonBatchKeep mr mp kw (xs ++ ys) =
      amazonBatchKeep mr mp kw xs ++ amazonBatchKeep mr mp kw ys := by
  simp [amazonBatchKeep]

/-- C7 amended: failure isolation holds — each extractor's detail phase
equals the per-target processing of the whole target list, so one
target's exception affects no other target's record and never stops a
later batch.  The failed target's own fate, however, differs: Amazon
keeps an error-tagged record carrying `error = str(e)`, while Maps
drops the failed target entirely (no error-tagged record). -/
theorem failure_isolation_spec (targets : List (String × ExtractOutcome))
    (mr : Int) (mp : Option Int) (kw : String) :
    mapsDetailPhase targets =
      (targets.map (fun p => extract_place_details p.1 p.2)).reduceOption ∧
    amazonDetailPhase mr mp kw targets =
      ((targets.map (fun p => extract_product_details p.1 p.2)).filter
        (amazonFilter mr mp)).map (tagKeyword kw) ∧
    (∀ asin fs e, extract_product_details asin (ExtractOutcome.exn fs e) =
      Value.dict (asinBase asin ++ fs ++ [("error", Value.str e)])) ∧
    (∀ url fs e, extract_place_details url (ExtractOutcome.exn fs e) = none) := by
  refine ⟨?_, ?_, fun asin fs e => rfl, fun url fs e => rfl⟩
  · show ((chunks batch_size targets).map mapsBatchKeep).flatten = _
    rw [flatten_map_batches mapsBatchKeep rfl mapsBatchKeep_append,
      show (chunks batch_size targets).flatten = targets from chunks3_flatten targets]
    rfl
  · show ((chunks batch_size targets).map (amazonBatchKeep mr mp kw)).flatten = _
    rw [flatten_map_batches (amazonBatchKeep mr mp kw) rfl
        (amazonBatchKeep_append mr mp kw),
      show (chunks batch_size targets).flatten = targets from chunks3_flatten targets]
    rfl

/-! # Engine initialization idempotence (C9) -/

/-- C9 counterexample: `ScraperEngine.initialize` has no guard — a
second call on an already-initialized engine starts a second driver and
launches a second browser instead of leaving the single browser
process in place. -/
theorem initialize_not_idempotent :
    (initEngine (initEngine engineInit)).browserLaunches = 2 ∧
    (initEngine (initEngine engineInit)).playwrightStarts = 2 := by
  exact ⟨rfl, rfl⟩

theorem create_context_browserSet (s : EngineState) :
    (create_context s).browserSet = true := by
  by_cases h : s.browserSet <;> simp [create_context, initEngine, h]

/-- C9 amended: one-browser-per-session holds only through the lazy
`create_context` path: `create_context` initializes exactly when no
browser is set, so on an engine with a browser it launches nothing new,
and any number of repeated `create_context` calls on a fresh engine
launch exactly one browser; a direct second `initialize()` call,
however, starts an additional driver and browser. -/
theorem lazy_initialization_idempotent (s : EngineState) :
    ((create_context s).browserSet = true) ∧
    (s.browserSet = true →
      (create_context s).browserLaunches = s.browserLaunches ∧
      (create_context s).playwrightStarts = s.playwrightStarts) ∧
    ((create_context (create_context s)).browserLaunches =
      (create_context s).browserLaunches) ∧
    (∀ n, (create_context^[n] (create_context engineInit)).browserLaunches = 1) ∧
    (initEngine (initEngine engineInit)).browserLaunches = 2 := by
  refine ⟨create_context_browserSet s, ?_, ?_, ?_, rfl⟩
  · intro h
    constructor <;> simp [create_context, h]
  · have ht : (create_context s).browserSet = true := create_context_browserSet s
    generalize create_context s = t at ht ⊢
    simp [create_context, ht]
  · intro n
    induction n with
    | zero => rfl
    | succ n ih =>
      rw [Function.iterate_succ_apply']
      have hset : (create_context^[n] (create_context engineInit)).browserSet = true := by
        cases n with
        | zero => exact create_context_browserSet engineInit
        | succ k =>
          rw [Function.iterate_succ_apply']
          exact create_context_browserSet _
      generalize create_context^[n] (create_context engineInit) = t at hset ih ⊢
      simp [create_context, hset, ih]

/-- Witness for C9 (amended): on an engine whose browser is already
set, `create_context` launches no additional browser. -/
theorem lazy_initialization_idempotent_witness :
    (create_context (initEngine engineInit)).browserLaunches =
        (initEngine engineInit).browserLaunches ∧
    (create_context (initEngine engineInit)).playwrightStarts =
        (initEngine engineInit).playwrightStarts :=
  (lazy_initialization_idempotent (initEngine engineInit)).2.1 rfl

end Scrapi
